import Mathlib

/-!
Shallow embedding of the HTML-to-lines layout engine of the `epy` terminal
ebook reader (`src/epy_reader/parser.py` and `src/epy_reader/models.py`),
together with models of the Python standard-library primitives the engine
calls (`textwrap.wrap` with its default options, `str.center`,
`str.splitlines`, `re.sub(r"\s+", " ", ...)`, `str.lstrip`).

Python `str` values are modelled by Lean `String` (lengths agree: Python
`len` counts code points, Lean `String.length` counts `Char`s); Python
`list`/`tuple` by `List`; Python `set` by a duplicate-free `List` used only
through membership; Python `dict` by an association list with
overwrite-in-place assignment, used only through key lookup; Python `int`
by `Int` (arbitrary precision, no wrapping); a Python function that can
raise is modelled in `Except PyErr`.
-/

/-- Exceptions that the modelled Python code can raise. -/
inductive PyErr where
  | indexError
  | valueError
  | keyError
deriving DecidableEq, Repr

/-- Model of the character position dataclass `CharPos` of
`src/epy_reader/models.py`: a row index into a list of lines and a column
index into that row.  Rows produced by the parser are always natural
numbers; columns take part in Python integer arithmetic and are kept as
`Int`. -/
structure CharPos where
  row : Nat
  col : Int
deriving DecidableEq, Repr

/-- Model of the dataclass `TextMark` of `src/epy_reader/models.py`:
an inclusive interval of marked text, with `end = None` while the mark is
still unterminated. -/
structure TextMark where
  start : CharPos
  «end» : Option CharPos := none
deriving DecidableEq, Repr

/-- Model of `TextMark.is_valid` (`src/epy_reader/models.py`, lines
122-134): true iff `end` is present and either both ends share a row with
`start.col <= end.col`, or `start.row < end.row`. -/
def TextMark.is_valid (m : TextMark) : Bool :=
  match m.«end» with
  | some e =>
      if m.start.row = e.row then decide (m.start.col ≤ e.col)
      else decide (m.start.row < e.row)
  | none => false

/-- Model of the dataclass `TextSpan` of `src/epy_reader/models.py`:
a start position plus a letter count. -/
structure TextSpan where
  start : CharPos
  n_letters : Int
deriving DecidableEq, Repr

/-- Model of the dataclass `InlineStyle` of `src/epy_reader/models.py`. -/
structure InlineStyle where
  row : Nat
  col : Int
  n_letters : Int
  attr : Nat
deriving DecidableEq, Repr

/-- Model of the dataclass `TextStructure` of `src/epy_reader/models.py`.
The two mappings are association lists in insertion order. -/
structure TextStructure where
  text_lines : List String
  image_maps : List (Nat × String)
  section_rows : List (String × Nat)
  formatting : List InlineStyle
deriving DecidableEq, Repr

/-- Result type of `HTMLtoLines.get_structured_text`
(`src/epy_reader/parser.py`, line 284): either the raw paragraph tuple
(no-layout mode) or a `TextStructure`. -/
inductive StructuredText where
  | paragraphs (text : List String)
  | structured (ts : TextStructure)
deriving DecidableEq, Repr

/-- Value of `curses.A_BOLD` (ncurses: bit 13 of the attribute field,
shifted past the 8 colour bits).  The claims only rely on the bold and
italic attributes being fixed and distinct. -/
def attr_bold : Nat := 2097152

/-- Value of `curses.A_ITALIC` on terminals that have it (ncurses: bit 23
shifted past the 8 colour bits); `HTMLtoLines.attr_italic` falls back to
underline or normal when the attribute is missing, which does not change
any claim. -/
def attr_italic : Nat := 2147483648

/-- Python `dict` assignment `d[k] = v` on an association list: overwrite
the value in place if the key is present, otherwise append the binding. -/
def pySetItem [DecidableEq α] (l : List (α × β)) (k : α) (v : β) :
    List (α × β) :=
  if l.any (fun p => decide (p.1 = k)) then
    l.map (fun p => if p.1 = k then (k, v) else p)
  else l ++ [(k, v)]

/-- Python `dict` lookup `d.get(k)` / `d[k]` on an association list. -/
def pyLookup [DecidableEq α] (l : List (α × β)) (k : α) : Option β :=
  (l.find? (fun p => decide (p.1 = k))).map (fun p => p.2)

/-- Python `set.add` on a duplicate-free list. -/
def pyAdd [DecidableEq α] (l : List α) (x : α) : List α :=
  if x ∈ l then l else l ++ [x]

/-- Whitespace characters of Python `str.strip` / regex `\s` restricted to
ASCII, which is all the engine's inputs use. -/
def isPyWS (c : Char) : Bool :=
  c = ' ' ∨ c = '\t' ∨ c = '\n' ∨ c = '\r' ∨ c = '\x0b' ∨ c = '\x0c'

/-- Model of Python `str.lstrip()`. -/
def pyLstrip (s : String) : String :=
  String.mk (s.toList.dropWhile isPyWS)

/-- Character-list worker for `re.sub(r"\s+", " ", s)`: each maximal run
of whitespace becomes a single space.  The boolean records whether the
previous character was whitespace. -/
def collapseWSGo : List Char → Bool → List Char
  | [], _ => []
  | c :: rest, prevWS =>
      if isPyWS c then
        if prevWS then collapseWSGo rest true
        else ' ' :: collapseWSGo rest true
      else c :: collapseWSGo rest false

/-- Model of `re.sub(r"\s+", " ", s)` as used by
`HTMLtoLines.handle_data` (`src/epy_reader/parser.py`, line 273). -/
def collapseWS (s : String) : String :=
  String.mk (collapseWSGo s.toList false)

/-- Model of `html.unescape` (Python standard library).  The engine's
claims never feed text containing HTML character references, on which
`html.unescape` is the identity, so it is modelled as the identity. -/
def unescape (s : String) : String := s

/-- Model of `urllib.parse.unquote` (Python standard library).  The
claims never inspect image paths nor feed percent-escapes, on which
`unquote` is the identity, so it is modelled as the identity. -/
def unquote (s : String) : String := s

/-- Character-list worker for Python `str.expandtabs()` (tab size 8):
a tab advances the column to the next multiple of 8, `\n` and `\r` reset
the column. -/
def expandtabsGo : List Char → Nat → List Char
  | [], _ => []
  | c :: rest, col =>
      if c = '\t' then
        List.replicate (8 - col % 8) ' ' ++ expandtabsGo rest (col + (8 - col % 8))
      else if c = '\n' ∨ c = '\r' then c :: expandtabsGo rest 0
      else c :: expandtabsGo rest (col + 1)

/-- Model of `textwrap.TextWrapper._munge_whitespace` with the default
options `expand_tabs=True, replace_whitespace=True`: expand tabs, then
turn every remaining whitespace character into a plain space. -/
def mungeWhitespace (s : List Char) : List Char :=
  (expandtabsGo s 0).map (fun c => if isPyWS c then ' ' else c)

/-- Test that two characters fall in the same chunk class (whitespace or
not); after `mungeWhitespace` all whitespace is `' '`. -/
def sameChunkClass (a b : Char) : Bool := (a = ' ') = (b = ' ')

/-- Character-list worker splitting munged text into maximal chunks of
whitespace / non-whitespace, the accumulator holding the current chunk
reversed. -/
def chunksGo : List Char → List Char → List (List Char)
  | [], acc => if acc.isEmpty then [] else [acc.reverse]
  | c :: rest, acc =>
      match acc with
      | [] => chunksGo rest [c]
      | a :: _ =>
          if sameChunkClass a c then chunksGo rest (c :: acc)
          else acc.reverse :: chunksGo rest [c]

/-- Model of `textwrap.TextWrapper._split` restricted to whitespace break
points.  The default `break_on_hyphens=True` additionally splits
hyphenated words after their hyphens; no claim input contains a hyphen
adjacent to letters, where the two splits coincide. -/
def splitChunks (s : List Char) : List (List Char) :=
  chunksGo s []

/-- Test for `chunk.strip() == ''` on a chunk (all characters are spaces;
true for the empty chunk). -/
def isWSChunk (c : List Char) : Bool := c.all (fun ch => ch = ' ')

/-- Model of the greedy inner loop of `textwrap.TextWrapper._wrap_chunks`:
pop chunks onto the current line while the accumulated length stays within
the width.  Returns the popped chunks, the accumulated length, and the
remaining chunks. -/
def fillLine (w : Nat) : List (List Char) → Nat →
    List (List Char) × Nat × List (List Char)
  | [], len => ([], len, [])
  | c :: rest, len =>
      if len + c.length ≤ w then
        let r := fillLine w rest (len + c.length)
        (c :: r.1, r.2.1, r.2.2)
      else ([], len, c :: rest)

/-- Model of the final `drop_whitespace` step of `_wrap_chunks`: drop the
last chunk of the line when it is pure whitespace. -/
def dropTrailingWS (l : List (List Char)) : List (List Char) :=
  match l.getLast? with
  | some last => if isWSChunk last then l.dropLast else l
  | none => l

/-- Model of `textwrap.TextWrapper._handle_long_word` with
`break_long_words=True`: when the next chunk is longer than the full
width, break off exactly the space left on the current line (at least one
character when the width is below one).  The `break_on_hyphens`
refinement, which can only shorten the broken piece, concerns hyphenated
chunks that no claim input contains.  When the next chunk fits the width
(or there is none), the line is left as the greedy fill produced it. -/
def handleLongWord (w : Nat) (curLine : List (List Char)) (curLen : Nat)
    (rem : List (List Char)) : List (List Char) × List (List Char) :=
  match rem with
  | c :: rest =>
      if w < c.length then
        let spaceLeft := if w < 1 then 1 else w - curLen
        (curLine ++ [c.take spaceLeft], c.drop spaceLeft :: rest)
      else (curLine, rem)
  | [] => (curLine, [])

/-- Model of the outer loop of `textwrap.TextWrapper._wrap_chunks` with
the default options (`drop_whitespace=True, break_long_words=True`, no
indents, `max_lines=None`).  `first` is true while no line has been
emitted yet (Python tests `lines` for emptiness); leading whitespace is
dropped on every line but the first.  The fuel argument strictly
decreases on every iteration; `pyWrapList` supplies enough fuel for the
loop to run to completion. -/
def wrapChunks (w : Nat) : Nat → Bool → List (List Char) → List (List Char)
  | 0, _, _ => []
  | _, _, [] => []
  | fuel + 1, first, c0 :: rest0 =>
      match (if first = false ∧ isWSChunk c0 then rest0 else c0 :: rest0) with
      | [] => []
      | c1 :: rest1 =>
          let f := fillLine w (c1 :: rest1) 0
          let hlw := handleLongWord w f.1 f.2.1 f.2.2
          if (dropTrailingWS hlw.1).isEmpty then wrapChunks w fuel first hlw.2
          else (dropTrailingWS hlw.1).flatten :: wrapChunks w fuel false hlw.2

/-- Fuel that strictly dominates the number of iterations of
`wrapChunks`: every iteration deletes a chunk, pops at least one chunk, or
shortens the leading chunk. -/
def wrapFuel (chunks : List (List Char)) : Nat :=
  (chunks.map List.length).sum + chunks.length + 1

/-- Model of `textwrap.wrap(s, w)` for a positive width `w`, on character
lists. -/
def pyWrapList (w : Nat) (s : List Char) : List (List Char) :=
  let chunks := splitChunks (mungeWhitespace s)
  wrapChunks w (wrapFuel chunks) true chunks

/-- Model of `textwrap.wrap(s, w)` with the default options: raises
`ValueError` for `w <= 0` (`TextWrapper._wrap_chunks` checks the width
before doing anything else), otherwise wraps greedily. -/
def pyWrap (s : String) (w : Int) : Except PyErr (List String) :=
  if w ≤ 0 then .error .valueError
  else .ok ((pyWrapList w.toNat s.toList).map String.mk)

/-- Model of Python `str.center(width)` (CPython `unicode_center`): the
string itself when `width <= len(s)`, otherwise pad with
`left = marg // 2 + (marg & width & 1)` spaces on the left and the rest on
the right. -/
def pyCenter (s : String) (width : Int) : String :=
  if width ≤ (s.length : Int) then s
  else
    let marg := width.toNat - s.length
    let left := marg / 2 + (marg &&& width.toNat &&& 1)
    String.mk (List.replicate left ' ') ++ s ++
      String.mk (List.replicate (marg - left) ' ')

/-- Character-list worker splitting on `\n`, the accumulator holding the
current piece reversed; produces one piece per newline plus a final
piece. -/
def splitOnNlGo : List Char → List Char → List String
  | [], acc => [String.mk acc.reverse]
  | c :: rest, acc =>
      if c = '\n' then String.mk acc.reverse :: splitOnNlGo rest []
      else splitOnNlGo rest (c :: acc)

/-- Model of Python `str.splitlines()` restricted to `\n` terminators
(the only line terminator the engine's inputs contain): split on `\n` and
drop the trailing empty piece left when the string ends in a newline or
is empty. -/
def pySplitlines (s : String) : List String :=
  let parts := splitOnNlGo s.toList []
  if parts.getLast? = some "" then parts.dropLast else parts

/-- Spans contributed by a single mark in
`HTMLtoLines._mark_to_spans` (`src/epy_reader/parser.py`, lines 34-65):
nothing for an invalid mark; one span of `end.col - start.col` letters for
a single-row mark; for a multi-row mark a span to the end of the first
row, a full-row span per intermediate row, and a span of `end.col` letters
from column 0 of the last row.  Row lookups model Python `text[row]`,
which the engine only performs at rows the parser created, always in
range. -/
def spansOfMark (text : List String) (mark : TextMark) : List TextSpan :=
  if mark.is_valid then
    match mark.«end» with
    | none => []
    | some e =>
        if mark.start.row = e.row then
          [⟨mark.start, e.col - mark.start.col⟩]
        else
          ⟨mark.start, ((text.getD mark.start.row "").length : Int) - mark.start.col⟩ ::
          ((List.range' (mark.start.row + 1) (e.row - mark.start.row - 1)).map
            (fun r => ⟨⟨r, 0⟩, ((text.getD r "").length : Int)⟩) ++
          [⟨⟨e.row, 0⟩, e.col⟩])
  else []

/-- Model of the static method `HTMLtoLines._mark_to_spans`
(`src/epy_reader/parser.py`, lines 34-65): concatenate, in order, the
spans of every valid mark. -/
def mark_to_spans (text : List String) (marks : List TextMark) : List TextSpan :=
  (marks.map (spansOfMark text)).flatten

/-- Loop of `HTMLtoLines._adjust_wrapped_spans`
(`src/epy_reader/parser.py`, lines 86-135).  `la` is `line_adjustment`,
`left` is `left_adjustment`, `sc`/`ec` are the span's start and end
columns in the unwrapped paragraph, `n` is the index of the current
wrapped line and `prev` the character length accumulated before it (each
line counts its length plus one for the dropped whitespace). -/
def adjustLoop (la : Nat) (left sc ec : Int) :
    Nat → Int → List String → List TextSpan
  | _, _, [] => []
  | n, prev, line :: rest =>
      let lineLen : Int := (line.length : Int) + 1
      let current := prev + lineLen
      if prev ≤ sc ∧ sc < current ∧ prev ≤ ec ∧ ec < current then
        ⟨⟨la + n, sc - prev + left⟩, ec - sc⟩ ::
          adjustLoop la left sc ec (n + 1) current rest
      else if prev ≤ sc ∧ sc < current then
        ⟨⟨la + n, sc - prev + left⟩, current - sc - 1⟩ ::
          adjustLoop la left sc ec (n + 1) current rest
      else if prev ≤ ec ∧ ec < current then
        ⟨⟨la + n, 0 + left⟩, ec - prev + 1⟩ ::
          adjustLoop la left sc ec (n + 1) current rest
      else if sc ≤ prev ∧ prev < ec ∧ sc ≤ current ∧ current < ec then
        ⟨⟨la + n, 0 + left⟩, lineLen - 1⟩ ::
          adjustLoop la left sc ec (n + 1) current rest
      else if ec < prev then []
      else adjustLoop la left sc ec (n + 1) current rest

/-- Model of the static method `HTMLtoLines._adjust_wrapped_spans`
(`src/epy_reader/parser.py`, lines 67-135): re-project a span given in
unwrapped-paragraph coordinates onto the wrapped lines of that paragraph,
shifting rows by `line_adjustment` and columns by `left_adjustment`. -/
def adjust_wrapped_spans (wrapped_lines : List String) (span : TextSpan)
    (line_adjustment : Nat) (left_adjustment : Int) : List TextSpan :=
  adjustLoop line_adjustment left_adjustment span.start.col
    (span.start.col + span.n_letters) 0 0 wrapped_lines

/-- Model of the static method `HTMLtoLines._group_spans_by_row`
(`src/epy_reader/parser.py`, lines 137-146): group spans by start row
into an insertion-ordered association list. -/
def group_spans_by_row (blocks : List TextSpan) : List (Nat × List TextSpan) :=
  blocks.foldl
    (fun groups block =>
      let row := block.start.row
      match pyLookup groups row with
      | some g => pySetItem groups row (g ++ [block])
      | none => groups ++ [(row, [block])])
    []

/-- Lookup `groups.get(n, [])` on the result of `group_spans_by_row`. -/
def groupGet (groups : List (Nat × List TextSpan)) (n : Nat) : List TextSpan :=
  (pyLookup groups n).getD []

/-- Model of the mutable state of the `HTMLtoLines` parser
(`src/epy_reader/parser.py`, lines 148-165).  Role-index sets are
duplicate-free lists used through membership, `sectsindex` and `imgs` are
association lists. -/
structure HTMLtoLines where
  text : List String
  ishead : Bool
  isinde : Bool
  isbull : Bool
  ispref : Bool
  ishidden : Bool
  idhead : List Nat
  idinde : List Nat
  idbull : List Nat
  idpref : List Nat
  idimgs : List Nat
  sects : List String
  sectsindex : List (Nat × String)
  italic_marks : List TextMark
  bold_marks : List TextMark
  imgs : List (Nat × String)
deriving DecidableEq, Repr

/-- Tag class sets of `HTMLtoLines` (`src/epy_reader/parser.py`, lines
14-20). -/
def paraTags : List String := ["p", "div"]

/-- Indented-block tags (`q`, `dt`, `dd`, `blockquote`). -/
def indeTags : List String := ["q", "dt", "dd", "blockquote"]

/-- Preformatted-block tags. -/
def prefTags : List String := ["pre"]

/-- Bullet tags. -/
def bullTags : List String := ["li"]

/-- Hidden-content tags. -/
def hideTags : List String := ["script", "style", "head"]

/-- Italic inline tags. -/
def italTags : List String := ["i", "em"]

/-- Bold inline tags. -/
def boldTags : List String := ["b", "strong"]

/-- Model of `re.match("h[1-6]", tag) is not None`: an anchored prefix
match, so any tag starting with `h1` .. `h6` counts as a heading tag. -/
def isHeadingTag (tag : String) : Bool :=
  match tag.toList with
  | 'h' :: c :: _ => ['1', '2', '3', '4', '5', '6'].contains c
  | _ => false

/-- Fresh parser state as built by `HTMLtoLines.__init__`
(`src/epy_reader/parser.py`, lines 148-165) for a given section-id set:
one empty paragraph, every flag clear, every collection empty. -/
def mkHTMLtoLines (sects : List String) : HTMLtoLines :=
  ⟨[""], false, false, false, false, false, [], [], [], [], [], sects,
    [], [], [], []⟩

/-- The current last paragraph, Python `self.text[-1]`.  The parser's
`text` starts as `[""]` and is only ever appended to or modified in its
last element, so it is never empty and the default is never taken on
reachable states. -/
def lastText (st : HTMLtoLines) : String :=
  (st.text.getLast?).getD ""

/-- In-place mutation of the last paragraph, Python `self.text[-1] += s`
patterns. -/
def modifyLastText (st : HTMLtoLines) (f : String → String) : HTMLtoLines :=
  { st with text := st.text.dropLast ++ [f (lastText st)] }

/-- One tokenizer event of Python's `html.parser.HTMLParser`, the
interface the spec describes as a stream of tag-open, tag-close and
text-data events.  Attribute values are the strings the tokenizer
produces. -/
inductive HtmlEvent where
  | starttag (tag : String) (attrs : List (String × String))
  | startendtag (tag : String) (attrs : List (String × String))
  | endtag (tag : String)
  | data (raw : String)
deriving DecidableEq, Repr

/-- Image handling common to `handle_starttag` and `handle_startendtag`:
for every `src` (resp. `...href`) attribute record the upcoming line index
in `idimgs` and `imgs` and append the placeholder lines. -/
def handleImageAttrs (st : HTMLtoLines) (tag : String)
    (attrs : List (String × String)) (extraBlank : Bool) : HTMLtoLines :=
  attrs.foldl
    (fun st i =>
      if (tag = "img" ∧ i.1 = "src") ∨ (tag = "image" ∧ i.1.endsWith "href") then
        let thisLine := st.text.length
        { st with
          idimgs := pyAdd st.idimgs thisLine
          imgs := pySetItem st.imgs thisLine (unquote i.2)
          text := st.text ++ (if extraBlank then ["[IMAGE]", ""] else ["[IMAGE]"]) }
      else st)
    st

/-- Section-anchor scan shared by `handle_starttag` and
`handle_startendtag` (`src/epy_reader/parser.py`, lines 201-206 and
223-227): when the parser was given section ids, record the current
paragraph index for every `id` attribute of interest. -/
def handleSectAttrs (st : HTMLtoLines) (attrs : List (String × String)) :
    HTMLtoLines :=
  if st.sects ≠ [""] then
    attrs.foldl
      (fun st i =>
        if i.1 = "id" ∧ st.sects.contains i.2 then
          { st with sectsindex := pySetItem st.sectsindex (st.text.length - 1) i.2 }
        else st)
      st
  else st

/-- Model of `HTMLtoLines.handle_starttag` (`src/epy_reader/parser.py`,
lines 167-206). -/
def handle_starttag (st : HTMLtoLines) (tag : String)
    (attrs : List (String × String)) : HTMLtoLines :=
  let st :=
    if isHeadingTag tag then { st with ishead := true }
    else if indeTags.contains tag then { st with isinde := true }
    else if prefTags.contains tag then { st with ispref := true }
    else if bullTags.contains tag then { st with isbull := true }
    else if hideTags.contains tag then { st with ishidden := true }
    else if tag = "sup" then modifyLastText st (fun s => s ++ "^\x7b")
    else if tag = "sub" then modifyLastText st (fun s => s ++ "_\x7b")
    else if tag = "img" ∨ tag = "image" then handleImageAttrs st tag attrs false
    else if italTags.contains tag then
      if st.italic_marks = [] ∨
          ((st.italic_marks.getLast?.map TextMark.is_valid).getD false) then
        { st with italic_marks := st.italic_marks ++
            [⟨⟨st.text.length - 1, ((lastText st).length : Int)⟩, none⟩] }
      else st
    else if boldTags.contains tag then
      if st.bold_marks = [] ∨
          ((st.bold_marks.getLast?.map TextMark.is_valid).getD false) then
        { st with bold_marks := st.bold_marks ++
            [⟨⟨st.text.length - 1, ((lastText st).length : Int)⟩, none⟩] }
      else st
    else st
  handleSectAttrs st attrs

/-- Model of `HTMLtoLines.handle_startendtag` (`src/epy_reader/parser.py`,
lines 208-227). -/
def handle_startendtag (st : HTMLtoLines) (tag : String)
    (attrs : List (String × String)) : HTMLtoLines :=
  let st :=
    if tag = "br" then { st with text := st.text ++ [""] }
    else if tag = "img" ∨ tag = "image" then handleImageAttrs st tag attrs true
    else st
  handleSectAttrs st attrs

/-- Model of `HTMLtoLines.handle_endtag` (`src/epy_reader/parser.py`,
lines 229-262).  Closing an italic or bold tag reads
`self.italic_marks[-1]` / `self.bold_marks[-1]`, which raises `IndexError`
when no such mark was ever opened. -/
def handle_endtag (st : HTMLtoLines) (tag : String) :
    Except PyErr HTMLtoLines :=
  if isHeadingTag tag then
    .ok { st with text := st.text ++ ["", ""], ishead := false }
  else if paraTags.contains tag then
    .ok { st with text := st.text ++ [""] }
  else if hideTags.contains tag then
    .ok { st with ishidden := false }
  else if indeTags.contains tag then
    let st := if lastText st ≠ "" then { st with text := st.text ++ [""] } else st
    .ok { st with isinde := false }
  else if prefTags.contains tag then
    let st := if lastText st ≠ "" then { st with text := st.text ++ [""] } else st
    .ok { st with ispref := false }
  else if bullTags.contains tag then
    let st := if lastText st ≠ "" then { st with text := st.text ++ [""] } else st
    .ok { st with isbull := false }
  else if tag = "sub" ∨ tag = "sup" then
    .ok (modifyLastText st (fun s => s ++ "\x7d"))
  else if tag = "img" ∨ tag = "image" then
    .ok { st with text := st.text ++ [""] }
  else if italTags.contains tag then
    match st.italic_marks.getLast? with
    | none => .error .indexError
    | some last =>
        let e : Option CharPos := some ⟨st.text.length - 1, ((lastText st).length : Int)⟩
        .ok { st with italic_marks := st.italic_marks.dropLast ++ [{ last with «end» := e }] }
  else if boldTags.contains tag then
    match st.bold_marks.getLast? with
    | none => .error .indexError
    | some last =>
        let e : Option CharPos := some ⟨st.text.length - 1, ((lastText st).length : Int)⟩
        .ok { st with bold_marks := st.bold_marks.dropLast ++ [{ last with «end» := e }] }
  else .ok st

/-- Model of `HTMLtoLines.handle_data` (`src/epy_reader/parser.py`, lines
264-282): skip empty or hidden data; left-strip the first data of an
empty paragraph; collapse whitespace runs unless inside a preformatted
block; append to the last paragraph and record the paragraph's role. -/
def handle_data (st : HTMLtoLines) (raw : String) : HTMLtoLines :=
  if raw ≠ "" ∧ st.ishidden = false then
    let tmp := if lastText st = "" then pyLstrip raw else raw
    let line := if st.ispref then unescape tmp else unescape (collapseWS tmp)
    let st := modifyLastText st (fun s => s ++ line)
    let idx := st.text.length - 1
    if st.ishead then { st with idhead := pyAdd st.idhead idx }
    else if st.isbull then { st with idbull := pyAdd st.idbull idx }
    else if st.isinde then { st with idinde := pyAdd st.idinde idx }
    else if st.ispref then { st with idpref := pyAdd st.idpref idx }
    else st
  else st

/-- Dispatch of one tokenizer event to the matching handler. -/
def handleEvent (st : HTMLtoLines) : HtmlEvent → Except PyErr HTMLtoLines
  | .starttag tag attrs => .ok (handle_starttag st tag attrs)
  | .startendtag tag attrs => .ok (handle_startendtag st tag attrs)
  | .endtag tag => handle_endtag st tag
  | .data raw => .ok (handle_data st raw)

/-- Model of `HTMLParser.feed` on an already-tokenized event stream:
process the events in order, propagating the first exception. -/
def feed (st : HTMLtoLines) : List HtmlEvent → Except PyErr HTMLtoLines
  | [] => .ok st
  | e :: rest =>
      match handleEvent st e with
      | .error err => .error err
      | .ok st' => feed st' rest

/-- Convenience total variant of `feed` for states known to parse without
an exception. -/
def feedD (st : HTMLtoLines) (events : List HtmlEvent) : HTMLtoLines :=
  match feed st events with
  | .ok st' => st'
  | .error _ => st

/-- Python loop `for tmp_line in tmp: wraptmp += textwrap.wrap(tmp_line,
textwidth - 6)` of the preformatted branch, propagating the first
exception. -/
def wrapEach (w : Int) : List String → Except PyErr (List (List String))
  | [] => .ok []
  | l :: rest =>
      match pyWrap l w with
      | .error e => .error e
      | .ok ws =>
          match wrapEach w rest with
          | .error e => .error e
          | .ok wss => .ok (ws :: wss)

/-- Lines of output text that `HTMLtoLines.get_structured_text`
(`src/epy_reader/parser.py`, lines 301-344) emits for paragraph `n` with
content `line`: the `text += ...` effect of the branch chosen by the role
sets, in priority order heading, indent, bullet, preformatted, image,
default.  The image branch also performs the `self.imgs[n]` lookup whose
`KeyError` would abort the build. -/
def buildParagraph (st : HTMLtoLines) (w : Int) (n : Nat) (line : String) :
    Except PyErr (List String) :=
  if n ∈ st.idhead then
    .ok ([pyCenter line w] ++ [""])
  else if n ∈ st.idinde then
    match pyWrap line (w - 3) with
    | .error e => .error e
    | .ok ws => .ok (ws.map (fun i => "   " ++ i) ++ [""])
  else if n ∈ st.idbull then
    match pyWrap line (w - 3) with
    | .error e => .error e
    | .ok ws =>
        .ok ((match ws with
              | [] => []
              | first :: _ =>
                  ws.map (fun i => if i = first then " - " ++ i else "   " ++ i)) ++ [""])
  else if n ∈ st.idpref then
    match wrapEach (w - 6) (pySplitlines line) with
    | .error e => .error e
    | .ok wraps => .ok (wraps.flatten.map (fun i => "   " ++ i) ++ [""])
  else if n ∈ st.idimgs then
    match pyLookup st.imgs n with
    | none => .error .keyError
    | some _ => .ok ([pyCenter line w] ++ [""])
  else
    match pyWrap line w with
    | .error e => .error e
    | .ok ws => .ok (ws ++ [""])

/-- Accumulator of the paragraph loop of `get_structured_text`: the local
variables `text`, `images`, `sect` and `formatting`. -/
structure BuildAcc where
  text : List String
  images : List (Nat × String)
  sect : List (String × Nat)
  formatting : List InlineStyle
deriving DecidableEq, Repr

/-- Bold `InlineStyle` rows that the heading branch appends
(`src/epy_reader/parser.py`, lines 314-319): one entry per line the
paragraph emitted, i.e. for every `i` in `range(startline, len(text))`,
with `n_letters = len(text[i])`. -/
def headingStyles (sl startline : Nat) (block : List String) :
    List InlineStyle :=
  block.enum.map (fun p => ⟨sl + startline + p.1, 0, (p.2.length : Int), attr_bold⟩)

/-- Inline styles obtained by re-projecting the grouped spans of
paragraph `n` onto its wrapped block (`src/epy_reader/parser.py`, lines
350-382). -/
def spanStyles (groups : List (Nat × List TextSpan)) (n : Nat)
    (block : List String) (sl startline : Nat) (la : Int) (attr : Nat) :
    List InlineStyle :=
  ((groupGet groups n).map
    (fun sp => adjust_wrapped_spans block sp startline la)).flatten.map
    (fun sp => ⟨sl + sp.start.row, sp.start.col, sp.n_letters, attr⟩)

/-- Body of the paragraph loop of `get_structured_text`
(`src/epy_reader/parser.py`, lines 301-382) for paragraph `n`: record a
section anchor before emitting, emit the paragraph's block of lines
(`buildParagraph` collects the per-branch `text += ...`), record the image
position and the bold heading/image styles of the branch, then append the
re-projected italic and bold spans of the paragraph. -/
def buildStep (st : HTMLtoLines) (ig bg : List (Nat × List TextSpan))
    (w : Int) (sl : Nat) (acc : BuildAcc) (n : Nat) (line : String) :
    Except PyErr BuildAcc :=
  let startline := acc.text.length
  let acc :=
    match pyLookup st.sectsindex n with
    | some sectId => { acc with sect := pySetItem acc.sect sectId (sl + startline) }
    | none => acc
  match buildParagraph st w n line with
  | .error e => .error e
  | .ok block =>
      let acc := { acc with text := acc.text ++ block }
      let acc :=
        if n ∈ st.idhead then
          { acc with formatting := acc.formatting ++ headingStyles sl startline block }
        else if n ∉ st.idinde ∧ n ∉ st.idbull ∧ n ∉ st.idpref ∧ n ∈ st.idimgs then
          { acc with
            images := pySetItem acc.images (sl + startline) ((pyLookup st.imgs n).getD "")
            formatting := acc.formatting ++
              [⟨sl + startline, 0, ((pyCenter line w).length : Int), attr_bold⟩] }
        else acc
      let la : Int := if n ∈ st.idbull ∨ n ∈ st.idinde then 3 else 0
      let spanFmt := spanStyles ig n block sl startline la attr_italic ++
        spanStyles bg n block sl startline la attr_bold
      let acc := { acc with formatting := acc.formatting ++ spanFmt }
      .ok acc

/-- Paragraph loop of `get_structured_text`: fold `buildStep` over the
enumerated paragraph buffer, propagating the first exception. -/
def buildLoop (st : HTMLtoLines) (ig bg : List (Nat × List TextSpan))
    (w : Int) (sl : Nat) : BuildAcc → Nat → List String → Except PyErr BuildAcc
  | acc, _, [] => .ok acc
  | acc, n, line :: rest =>
      match buildStep st ig bg w sl acc n line with
      | .error e => .error e
      | .ok acc' => buildLoop st ig bg w sl acc' (n + 1) rest

/-- Model of `HTMLtoLines.get_structured_text`
(`src/epy_reader/parser.py`, lines 284-392).  Python's
`if not textwidth:` treats only `None` and `0` as no-layout mode — a
negative width is truthy and enters the layout path, where
`textwrap.wrap` raises `ValueError`.  In layout mode the paragraph marks
are converted to spans, grouped by row, and the paragraph loop runs;
finally the centered `"***"` chapter suffix is appended. -/
def get_structured_text (st : HTMLtoLines) (textwidth : Option Int)
    (starting_line : Nat) : Except PyErr StructuredText :=
  match textwidth with
  | none => .ok (.paragraphs st.text)
  | some w =>
      if w = 0 then .ok (.paragraphs st.text)
      else
        let italic_spans := mark_to_spans st.text st.italic_marks
        let bold_spans := mark_to_spans st.text st.bold_marks
        let ig := group_spans_by_row italic_spans
        let bg := group_spans_by_row bold_spans
        match buildLoop st ig bg w starting_line ⟨[], [], [], []⟩ 0 st.text with
        | .error e => .error e
        | .ok acc => .ok (.structured
            ⟨acc.text ++ [pyCenter "***" w], acc.images, acc.sect, acc.formatting⟩)

/-- Model of `parse_html` (`src/epy_reader/parser.py`, lines 395-421) on
an already-tokenized event stream; the tokenization itself is performed
by the standard library's `html.parser.HTMLParser`, outside this
repository, which reports every start tag, end tag, self-closing tag and
data run in document order whether or not the tags match. -/
def parse_html (events : List HtmlEvent) (textwidth : Option Int)
    (section_ids : List String) (starting_line : Nat) :
    Except PyErr StructuredText :=
  match feed (mkHTMLtoLines section_ids) events with
  | .error e => .error e
  | .ok parser' => get_structured_text parser' textwidth starting_line

/-- Text lines of a successful layout-mode result, `[]` otherwise. -/
def textLinesOf (r : Except PyErr StructuredText) : List String :=
  match r with
  | .ok (.structured ts) => ts.text_lines
  | _ => []

/-- Section rows of a successful layout-mode result, `[]` otherwise. -/
def sectionRowsOf (r : Except PyErr StructuredText) : List (String × Nat) :=
  match r with
  | .ok (.structured ts) => ts.section_rows
  | _ => []

/-- Formatting entries of a successful layout-mode result, `[]`
otherwise. -/
def formattingOf (r : Except PyErr StructuredText) : List InlineStyle :=
  match r with
  | .ok (.structured ts) => ts.formatting
  | _ => []

/-- Event stream that `html.parser.HTMLParser` produces for the HTML
string `"<h1>Title</h1><p>Hello world this is a test paragraph that
should wrap.</p>"`. -/
def titleEvents : List HtmlEvent :=
  [.starttag "h1" [], .data "Title", .endtag "h1",
   .starttag "p" [],
   .data "Hello world this is a test paragraph that should wrap.",
   .endtag "p"]

/-- Event stream for the HTML string `"<pre>a\n\nb</pre>"`: a
preformatted block whose author text contains an internal blank line. -/
def prefEvents : List HtmlEvent :=
  [.starttag "pre" [], .data "a\n\nb", .endtag "pre"]

/-- Parser state after feeding `prefEvents`. -/
def prefState : HTMLtoLines := feedD (mkHTMLtoLines []) prefEvents

/-- Event stream for the HTML string `"<li>x x</li>"`: a list item whose
two words wrap (at width `4 - 3 = 1`) into two identical lines. -/
def bullEvents : List HtmlEvent :=
  [.starttag "li" [], .data "x x", .endtag "li"]

/-- Event stream for five `<p>` paragraphs, the fifth carrying
`id="ch2"`; at `textwidth = 20` the first four paragraphs wrap into
`3 + 3 + 3 + 2 = 11` output lines (each paragraph's wrapped lines plus
its trailing blank). -/
def anchorEvents : List HtmlEvent :=
  [.starttag "p" [], .data "alpha beta gamma delta", .endtag "p",
   .starttag "p" [], .data "epsil zeta etaa theta iota", .endtag "p",
   .starttag "p" [], .data "kappa lamda muuuu nuuuu", .endtag "p",
   .starttag "p" [], .data "x", .endtag "p",
   .starttag "p" [("id", "ch2")], .data "anchored paragraph", .endtag "p"]

/-- Parser state after feeding `anchorEvents` with section-id set
`{"ch2"}`. -/
def anchorState : HTMLtoLines := feedD (mkHTMLtoLines ["ch2"]) anchorEvents

/-- Paragraph buffer of the repository's own test
`tests/test_text_parser.py::test_mark_to_span`, truncated to the rows the
claim exercises; row 2 has length 22. -/
def loremText : List String :=
  ["Lorem ipsum dolor sit amet,", "consectetur adipiscing elit.",
   "Curabitur rutrum massa", "pretium, pulvinar ligula a,"]

/-- Claim C1: the claim states that `parse_html` never raises on any
malformed HTML, including close tags with no matching open tag.  The code
violates this: `handle_endtag` for an italic/bold tag reads
`self.italic_marks[-1]` (`src/epy_reader/parser.py`, line 257), which
raises `IndexError` when the mark list is empty — exactly what the HTML
input `"</i>"` (a single end-tag event) produces.  This theorem evaluates
the embedded code at that failing input. -/
theorem C1_stray_close_tag_raises :
    parse_html [HtmlEvent.endtag "i"] none [] 0 = .error .indexError ∧
    handle_endtag (mkHTMLtoLines []) "i" = .error .indexError :=
  ⟨rfl, rfl⟩

/-- Claim C2, counterexample: for the spec's end-to-end example the
`formatting` list has two bold entries, not exactly one — the heading
branch (`src/epy_reader/parser.py`, lines 314-319) marks every row it
emitted, including the heading's trailing blank line (row 1, zero
letters). -/
theorem C2_counterexample :
    formattingOf (parse_html titleEvents (some 20) [] 0) =
      [⟨0, 0, 20, attr_bold⟩, ⟨1, 0, 0, attr_bold⟩] ∧
    (formattingOf (parse_html titleEvents (some 20) [] 0)).length ≠ 1 := by
  constructor
  · rfl
  · intro h
    simp only [formattingOf] at h
    revert h
    decide

/-- Claim C2, amended: the end-to-end example produces the centered
`"Title"` as line 0, a blank line 1, the word-wrapped paragraph lines
(each at most 20 characters), a final blank line and the centered `"***"`
as last line — and the formatting list contains exactly two bold entries,
one covering the 20 characters of line 0 and one of zero letters for the
blank line 1. -/
theorem C2_end_to_end :
    parse_html titleEvents (some 20) [] 0 = .ok (.structured
      ⟨["       Title        ", "", "", "Hello world this is",
        "a test paragraph", "that should wrap.", "", "",
        "        ***         "], [], [],
       [⟨0, 0, 20, attr_bold⟩, ⟨1, 0, 0, attr_bold⟩]⟩) ∧
    "       Title        " = pyCenter "Title" 20 ∧
    (∀ l ∈ ["Hello world this is", "a test paragraph", "that should wrap."],
      l.length ≤ 20) ∧
    "        ***         " = pyCenter "***" 20 := by
  refine ⟨rfl, rfl, ?_, rfl⟩
  decide

/-- Claim C3, counterexample: a negative `textwidth` is truthy in Python,
so `get_structured_text` does not take the `if not textwidth` no-layout
exit; it enters the layout path, where `textwrap.wrap` raises
`ValueError: invalid width` at the first wrapped paragraph.  The claim's
"any textwidth <= 0 returns the unwrapped paragraph tuple verbatim and
never raises" is therefore false at `textwidth = -1`. -/
theorem C3_counterexample :
    get_structured_text (mkHTMLtoLines []) (some (-1)) 0 = .error .valueError ∧
    get_structured_text (mkHTMLtoLines []) (some (-1)) 0 ≠
      .ok (.paragraphs (mkHTMLtoLines []).text) := by
  refine ⟨rfl, ?_⟩
  intro h
  rw [show get_structured_text (mkHTMLtoLines []) (some (-1)) 0 =
    .error .valueError from rfl] at h
  exact Except.noConfusion h

/-- Claim C5, counterexample: the preformatted block `"a\n\nb"` splits
into the three pieces `["a", "", "b"]`, but `textwrap.wrap("", w)`
returns no lines, so the internal blank line vanishes: the emitted block
is `["   a", "   b", ""]`, with `"   b"` immediately after `"   a"` and
no blank line between them — the claim's "without collapsing internal
blank lines of the preformatted block" fails. -/
theorem C5_counterexample :
    pySplitlines "a\n\nb" = ["a", "", "b"] ∧
    buildParagraph prefState 20 0 "a\n\nb" = .ok ["   a", "   b", ""] ∧
    textLinesOf (parse_html prefEvents (some 20) [] 0) =
      ["   a", "   b", "", "", "        ***         "] ∧
    ["   a", "   b", ""].getD 0 "" ≠ "" ∧
    ["   a", "   b", ""].getD 1 "" ≠ "" := by
  refine ⟨rfl, rfl, rfl, ?_, ?_⟩ <;> decide

/-- Claim C9: the claim (and the spec) say exactly the first wrapped line
of a bullet paragraph gets the `" - "` prefix and all later lines get
`"   "`.  The code compares each wrapped line's text with the first
line's text (`" - " + i if i == tmp[0]` — `src/epy_reader/parser.py`,
line 324), so any later line that happens to equal the first one also
receives `" - "`.  The bullet `"x x"` at `textwidth = 4` wraps into
`["x", "x"]` and both lines come out as `" - x"`, where the claim
requires `[" - x", "   x"]`. -/
theorem C9_duplicate_first_line :
    pyWrap "x x" 1 = .ok ["x", "x"] ∧
    parse_html bullEvents (some 4) [] 0 = .ok (.structured
      ⟨[" - x", " - x", "", "", "*** "], [], [], []⟩) ∧
    [" - x", " - x"] ≠ [" - x", "   x"] := by
  refine ⟨rfl, rfl, ?_⟩
  decide

/-- Claim C7: `TextMark.is_valid` is true exactly when `end` is present
and the interval is well-ordered; it is false whenever `end` is `None`;
and an invalid mark contributes nothing to the span list from which the
output formatting is built (`_mark_to_spans` guards every mark with
`mark.is_valid()`). -/
theorem C7_is_valid_characterisation :
    (∀ m : TextMark, m.is_valid = true ↔
      ∃ e, m.«end» = some e ∧
        ((m.start.row = e.row ∧ m.start.col ≤ e.col) ∨ m.start.row < e.row)) ∧
    (∀ m : TextMark, m.«end» = none → m.is_valid = false) ∧
    (∀ (text : List String) (m : TextMark) (ms : List TextMark),
      m.is_valid = false →
      mark_to_spans text (m :: ms) = mark_to_spans text ms) := by
  refine ⟨?_, ?_, ?_⟩
  · intro m
    rcases h : m.«end» with _ | e
    · simp [TextMark.is_valid, h]
    · simp only [TextMark.is_valid, h, Option.some.injEq]
      constructor
      · intro hv
        refine ⟨e, rfl, ?_⟩
        by_cases hr : m.start.row = e.row
        · exact Or.inl ⟨hr, by simpa [hr] using hv⟩
        · exact Or.inr (by simpa [hr] using hv)
      · rintro ⟨e', he', hc⟩
        cases he'
        rcases hc with ⟨hr, hc⟩ | hlt
        · simpa [hr] using hc
        · have hr : ¬m.start.row = e.row := Nat.ne_of_lt hlt
          simpa [hr] using hlt
  · intro m h
    simp [TextMark.is_valid, h]
  · intro text m ms hm
    simp [mark_to_spans, spansOfMark, hm]

/-- Claim C7, witness: the unterminated mark of `<div><i>ab</div>` (no
closing `</i>`) is dropped and the remaining marks are processed
unchanged. -/
theorem C7_witness :
    mark_to_spans ["ab"] [⟨⟨0, 0⟩, none⟩, ⟨⟨0, 0⟩, some ⟨0, 2⟩⟩] =
      mark_to_spans ["ab"] [⟨⟨0, 0⟩, some ⟨0, 2⟩⟩] :=
  C7_is_valid_characterisation.2.2 ["ab"] ⟨⟨0, 0⟩, none⟩
    [⟨⟨0, 0⟩, some ⟨0, 2⟩⟩] (by decide)

/-- Claim C4: a valid single-row mark yields exactly one span of
`end.col - start.col` letters; a valid multi-row mark yields a first span
to the end of its first row, one full-row span per intermediate row, and
a final span of `end.col` letters from column 0 of the last row; over the
repository's own test buffer (row 2 of length 22) the two spec examples
evaluate as claimed. -/
theorem C4_mark_to_spans :
    (∀ (text : List String) (s e : CharPos),
      (TextMark.mk s (some e)).is_valid = true → s.row = e.row →
      mark_to_spans text [⟨s, some e⟩] = [⟨s, e.col - s.col⟩]) ∧
    (∀ (text : List String) (s e : CharPos),
      (TextMark.mk s (some e)).is_valid = true → s.row ≠ e.row →
      mark_to_spans text [⟨s, some e⟩] =
        ⟨s, ((text.getD s.row "").length : Int) - s.col⟩ ::
        ((List.range' (s.row + 1) (e.row - s.row - 1)).map
          (fun r => ⟨⟨r, 0⟩, ((text.getD r "").length : Int)⟩) ++
        [⟨⟨e.row, 0⟩, e.col⟩])) ∧
    (loremText.getD 2 "").length = 22 ∧
    mark_to_spans loremText [⟨⟨2, 3⟩, some ⟨2, 19⟩⟩] = [⟨⟨2, 3⟩, 16⟩] ∧
    mark_to_spans loremText [⟨⟨2, 3⟩, some ⟨3, 5⟩⟩] =
      [⟨⟨2, 3⟩, 19⟩, ⟨⟨3, 0⟩, 5⟩] := by
  refine ⟨?_, ?_, rfl, rfl, rfl⟩
  · intro text s e hv hr
    simp [mark_to_spans, spansOfMark, hv, hr]
  · intro text s e hv hr
    simp [mark_to_spans, spansOfMark, hv, hr]

/-- Claim C4, witness: the single-row branch applied to the spec's
example mark on the test buffer. -/
theorem C4_witness :
    mark_to_spans loremText [⟨⟨2, 3⟩, some ⟨2, 19⟩⟩] =
      [⟨⟨2, 3⟩, (19 : Int) - 3⟩] :=
  C4_mark_to_spans.1 loremText ⟨2, 3⟩ ⟨2, 19⟩ (by decide) rfl

/-- Bounds of the spans produced by the `_adjust_wrapped_spans` loop:
every span lands on one of the wrapped lines (row between
`la + n` and `la + n + lines.length - 1`) and its column is the
`left_adjustment` plus a non-negative offset. -/
theorem adjustLoop_mem_bounds (la : Nat) (left sc ec : Int) :
    ∀ (lines : List String) (n : Nat) (prev : Int) (ts : TextSpan),
      ts ∈ adjustLoop la left sc ec n prev lines →
      la + n ≤ ts.start.row ∧ ts.start.row < la + n + lines.length ∧
      left ≤ ts.start.col := by
  intro lines
  induction lines with
  | nil => intro n prev ts hts; simp [adjustLoop] at hts
  | cons line rest ih =>
    intro n prev ts hts
    simp only [adjustLoop] at hts
    split_ifs at hts with h1 h2 h3 h4 h5
    · rcases List.mem_cons.mp hts with h | h
      · subst h
        refine ⟨by dsimp only; omega, ?_, by dsimp only; omega⟩
        dsimp only
        simp only [List.length_cons]
        omega
      · obtain ⟨ha, hb, hc⟩ := ih (n + 1) _ ts h
        exact ⟨by omega, by simp only [List.length_cons]; omega, hc⟩
    · rcases List.mem_cons.mp hts with h | h
      · subst h
        refine ⟨by dsimp only; omega, ?_, by dsimp only; omega⟩
        dsimp only
        simp only [List.length_cons]
        omega
      · obtain ⟨ha, hb, hc⟩ := ih (n + 1) _ ts h
        exact ⟨by omega, by simp only [List.length_cons]; omega, hc⟩
    · rcases List.mem_cons.mp hts with h | h
      · subst h
        refine ⟨by dsimp only; omega, ?_, by dsimp only; omega⟩
        dsimp only
        simp only [List.length_cons]
        omega
      · obtain ⟨ha, hb, hc⟩ := ih (n + 1) _ ts h
        exact ⟨by omega, by simp only [List.length_cons]; omega, hc⟩
    · rcases List.mem_cons.mp hts with h | h
      · subst h
        refine ⟨by dsimp only; omega, ?_, by dsimp only; omega⟩
        dsimp only
        simp only [List.length_cons]
        omega
      · obtain ⟨ha, hb, hc⟩ := ih (n + 1) _ ts h
        exact ⟨by omega, by simp only [List.length_cons]; omega, hc⟩
    · simp at hts
    · obtain ⟨ha, hb, hc⟩ := ih (n + 1) _ ts hts
      exact ⟨by omega, by simp only [List.length_cons]; omega, hc⟩

/-- Claim C10: every span `_adjust_wrapped_spans` returns points inside
the wrapped block it was given — its row lies between `line_adjustment`
and `line_adjustment + len(wrapped_lines) - 1` inclusive (stated as
`row + 1 <= line_adjustment + len`) and its column is at least
`left_adjustment`. -/
theorem C10_adjusted_spans_in_block :
    ∀ (wrapped_lines : List String) (span : TextSpan) (la : Nat) (left : Int),
      0 ≤ left →
      ∀ ts ∈ adjust_wrapped_spans wrapped_lines span la left,
        la ≤ ts.start.row ∧ ts.start.row + 1 ≤ la + wrapped_lines.length ∧
        left ≤ ts.start.col := by
  intro wl span la left _hleft ts hts
  have h := adjustLoop_mem_bounds la left span.start.col
    (span.start.col + span.n_letters) wl 0 0 ts hts
  exact ⟨by omega, by omega, h.2.2⟩

/-- Claim C10, witness: the first span of the repository's own
`test_span_adjustment` case lies inside its two wrapped lines. -/
theorem C10_witness :
    0 ≤ (⟨⟨0, 14⟩, 3⟩ : TextSpan).start.row ∧
    (⟨⟨0, 14⟩, 3⟩ : TextSpan).start.row + 1 ≤
      0 + (["Lorem ipsum dolor", "sit amet,"] : List String).length ∧
    (0 : Int) ≤ (⟨⟨0, 14⟩, 3⟩ : TextSpan).start.col :=
  C10_adjusted_spans_in_block ["Lorem ipsum dolor", "sit amet,"]
    ⟨⟨0, 14⟩, 7⟩ 0 0 (by decide) ⟨⟨0, 14⟩, 3⟩ (by decide)

/-- Negative widths make every wrapping branch of `buildParagraph` raise
`ValueError`: the indent, bullet and default branches call
`textwrap.wrap` with width `w - 3` or `w`, both non-positive. -/
theorem buildParagraph_neg_width (st : HTMLtoLines) (w : Int) (n : Nat)
    (line : String) (hw : w < 0) (hh : n ∉ st.idhead)
    (hi : n ∉ st.idimgs) (hp : n ∉ st.idpref) :
    buildParagraph st w n line = .error .valueError := by
  unfold buildParagraph
  have hwrap3 : pyWrap line (w - 3) = .error .valueError := by
    unfold pyWrap; rw [if_pos (by omega)]
  have hwrap0 : pyWrap line w = .error .valueError := by
    unfold pyWrap; rw [if_pos (by omega)]
  by_cases hinde : n ∈ st.idinde
  · rw [if_neg hh, if_pos hinde, hwrap3]
  · by_cases hbull : n ∈ st.idbull
    · rw [if_neg hh, if_neg hinde, if_pos hbull, hwrap3]
    · rw [if_neg hh, if_neg hinde, if_neg hbull, if_neg hp, if_neg hi, hwrap0]

/-- A paragraph whose block computation raises aborts the whole
`buildStep` with the same exception. -/
theorem buildStep_of_error (st : HTMLtoLines)
    (ig bg : List (Nat × List TextSpan)) (w : Int) (sl : Nat)
    (acc : BuildAcc) (n : Nat) (line : String) (e : PyErr)
    (h : buildParagraph st w n line = .error e) :
    buildStep st ig bg w sl acc n line = .error e := by
  unfold buildStep
  cases hsect : pyLookup st.sectsindex n <;> rw [h]

/-- Claim C3, amended: `textwidth` absent or `0` is the no-layout mode
returning the paragraph tuple verbatim and never raising; a negative
`textwidth` is truthy, so it enters the layout path where the first
paragraph that needs wrapping (any paragraph that is not a heading, image
or preformatted block — including the empty paragraph of a fresh parser)
raises `ValueError`. -/
theorem C3_textwidth_modes :
    (∀ (st : HTMLtoLines) (sl : Nat),
      get_structured_text st none sl = .ok (.paragraphs st.text)) ∧
    (∀ (st : HTMLtoLines) (sl : Nat),
      get_structured_text st (some 0) sl = .ok (.paragraphs st.text)) ∧
    (∀ (st : HTMLtoLines) (w : Int) (sl : Nat) (line : String)
      (rest : List String),
      w < 0 → st.text = line :: rest →
      0 ∉ st.idhead → 0 ∉ st.idimgs → 0 ∉ st.idpref →
      get_structured_text st (some w) sl = .error .valueError) := by
  refine ⟨fun st sl => rfl, fun st sl => by simp [get_structured_text], ?_⟩
  intro st w sl line rest hw htext hh hi hp
  have hw0 : ¬w = 0 := by omega
  have hpar : buildParagraph st w 0 line = .error .valueError :=
    buildParagraph_neg_width st w 0 line hw hh hi hp
  simp only [get_structured_text, hw0, if_false, htext, buildLoop]
  rw [buildStep_of_error _ _ _ _ _ _ _ _ _ hpar]

/-- Claim C3, witness: the three modes at a fresh parser state. -/
theorem C3_witness :
    get_structured_text (mkHTMLtoLines []) none 0 =
      .ok (.paragraphs (mkHTMLtoLines []).text) ∧
    get_structured_text (mkHTMLtoLines []) (some 0) 0 =
      .ok (.paragraphs (mkHTMLtoLines []).text) ∧
    get_structured_text (mkHTMLtoLines []) (some (-2)) 0 =
      .error .valueError :=
  ⟨C3_textwidth_modes.1 (mkHTMLtoLines []) 0,
   C3_textwidth_modes.2.1 (mkHTMLtoLines []) 0,
   C3_textwidth_modes.2.2 (mkHTMLtoLines []) (-2) 0 "" [] (by omega) rfl
     (by decide) (by decide) (by decide)⟩

/-- Section-anchor bookkeeping of `buildStep`: when paragraph `n` is in
`sectsindex`, the step (on success) records
`sect[anchor_id] = starting_line + len(text)` with the output line count
taken before the paragraph's lines are emitted, and no later part of the
step changes `sect`. -/
theorem buildStep_sect (st : HTMLtoLines)
    (ig bg : List (Nat × List TextSpan)) (w : Int) (sl : Nat)
    (acc acc' : BuildAcc) (n : Nat) (line : String) (sectId : String)
    (hsect : pyLookup st.sectsindex n = some sectId)
    (hstep : buildStep st ig bg w sl acc n line = .ok acc') :
    acc'.sect = pySetItem acc.sect sectId (sl + acc.text.length) := by
  unfold buildStep at hstep
  rw [hsect] at hstep
  cases hb : buildParagraph st w n line with
  | error e => rw [hb] at hstep; exact absurd hstep (fun h => Except.noConfusion h)
  | ok block =>
    rw [hb] at hstep
    simp only [Except.ok.injEq] at hstep
    subst hstep
    dsimp only
    split_ifs <;> rfl

/-- Accumulated length returned by `fillLine`: the initial length plus
the total length of the popped chunks; and it never exceeds the width
when the initial length did not. -/
theorem fillLine_spec (w : Nat) :
    ∀ (chunks : List (List Char)) (len : Nat),
      (fillLine w chunks len).2.1 =
        len + (((fillLine w chunks len).1).map List.length).sum ∧
      (len ≤ w → (fillLine w chunks len).2.1 ≤ w) := by
  intro chunks
  induction chunks with
  | nil => intro len; simp [fillLine]
  | cons c rest ih =>
    intro len
    by_cases h : len + c.length ≤ w
    · obtain ⟨h1, h2⟩ := ih (len + c.length)
      constructor
      · simp only [fillLine, if_pos h, List.map_cons, List.sum_cons]
        omega
      · intro _
        simp only [fillLine, if_pos h]
        exact h2 h
    · simp [fillLine, if_neg h]

/-- Dropping the last chunk cannot increase the total length. -/
theorem sum_map_dropLast_le (l : List (List Char)) :
    ((l.dropLast).map List.length).sum ≤ (l.map List.length).sum := by
  induction l with
  | nil => simp
  | cons a t ih =>
    cases t with
    | nil => simp
    | cons b t' =>
      simp only [List.dropLast_cons₂, List.map_cons, List.sum_cons] at ih ⊢
      omega

/-- Dropping the trailing whitespace chunk cannot increase the total
length. -/
theorem dropTrailingWS_sum_le (l : List (List Char)) :
    ((dropTrailingWS l).map List.length).sum ≤ (l.map List.length).sum := by
  unfold dropTrailingWS
  cases h : l.getLast? with
  | none => exact le_refl _
  | some last =>
    dsimp only
    split_ifs with hws
    · exact sum_map_dropLast_le l
    · exact le_refl _

/-- Every line emitted by the `_wrap_chunks` loop fits within a positive
width: the greedy fill keeps the accumulated length within `w`, a broken
long word gets exactly the space left on the line, and dropping trailing
whitespace only shortens the line. -/
theorem handleLongWord_sum (w : Nat) (curLine : List (List Char))
    (curLen : Nat) (rem : List (List Char)) (hw : 1 ≤ w)
    (hle : (curLine.map List.length).sum ≤ w)
    (hcl : curLen = (curLine.map List.length).sum) :
    (((handleLongWord w curLine curLen rem).1).map List.length).sum ≤ w := by
  unfold handleLongWord
  cases rem with
  | nil => simpa using hle
  | cons c rest =>
    dsimp only
    by_cases hlong : w < c.length
    · rw [if_pos hlong]
      dsimp only
      rw [if_neg (by omega : ¬w < 1)]
      simp only [List.map_append, List.sum_append, List.map_cons,
        List.sum_cons, List.map_nil, List.sum_nil]
      have htake := List.length_take (w - curLen) c
      omega
    · rw [if_neg hlong]
      simpa using hle

/-- Every line emitted by the `_wrap_chunks` loop fits within a positive
width: the greedy fill keeps the accumulated length within `w`, a broken
long word gets exactly the space left on the line, and dropping trailing
whitespace only shortens the line. -/
theorem wrapChunks_line_length (w : Nat) (hw : 1 ≤ w) :
    ∀ (fuel : Nat) (first : Bool) (chunks : List (List Char))
      (l : List Char), l ∈ wrapChunks w fuel first chunks → l.length ≤ w := by
  intro fuel
  induction fuel with
  | zero => intro first chunks l hl; simp [wrapChunks] at hl
  | succ fuel ih =>
    intro first chunks l hl
    cases chunks with
    | nil => simp [wrapChunks] at hl
    | cons c0 rest0 =>
      rw [wrapChunks] at hl
      rcases hc1 : (if first = false ∧ isWSChunk c0 then rest0
          else c0 :: rest0) with _ | ⟨c1, rest1⟩
      · rw [hc1] at hl; simp at hl
      · rw [hc1] at hl
        dsimp only at hl
        generalize hF : fillLine w (c1 :: rest1) 0 = f at hl
        generalize hH : handleLongWord w f.1 f.2.1 f.2.2 = hlw at hl
        obtain ⟨hsum, hbound⟩ := fillLine_spec w (c1 :: rest1) 0
        rw [hF] at hsum hbound
        have hfb := hbound (Nat.zero_le w)
        have hlen2 : ((hlw.1).map List.length).sum ≤ w := by
          rw [← hH]
          exact handleLongWord_sum w f.1 f.2.1 f.2.2 hw (by omega) (by omega)
        by_cases hemp : (dropTrailingWS hlw.1).isEmpty = true
        · rw [if_pos hemp] at hl
          exact ih first hlw.2 l hl
        · rw [if_neg hemp] at hl
          rcases List.mem_cons.mp hl with h | h
          · subst h
            rw [List.length_flatten]
            calc ((dropTrailingWS hlw.1).map List.length).sum
                ≤ ((hlw.1).map List.length).sum := dropTrailingWS_sum_le _
              _ ≤ w := hlen2
          · exact ih false hlw.2 l h

/-- Length of a packed character list. -/
theorem string_mk_length (l : List Char) : (String.mk l).length = l.length :=
  rfl

/-- Successful `textwrap.wrap` calls have positive width and produce
lines no longer than the width. -/
theorem pyWrap_ok (s : String) (w : Int) (ls : List String)
    (h : pyWrap s w = .ok ls) :
    1 ≤ w ∧ ∀ l ∈ ls, (l.length : Int) ≤ w := by
  unfold pyWrap at h
  by_cases hwle : w ≤ 0
  · rw [if_pos hwle] at h
    exact absurd h (fun x => Except.noConfusion x)
  · rw [if_neg hwle] at h
    have hw1 : 1 ≤ w := by omega
    refine ⟨hw1, ?_⟩
    simp only [Except.ok.injEq] at h
    subst h
    intro l hl
    rcases List.mem_map.mp hl with ⟨cl, hcl, rfl⟩
    unfold pyWrapList at hcl
    have hb := wrapChunks_line_length w.toNat (by omega) _ true _ cl hcl
    rw [string_mk_length]
    omega

/-- Each line produced by the preformatted branch's per-piece wrapping
loop fits within the wrap width. -/
theorem wrapEach_ok (v : Int) :
    ∀ (ls : List String) (wss : List (List String)),
      wrapEach v ls = .ok wss →
      ∀ ws ∈ wss, ∀ i ∈ ws, (i.length : Int) ≤ v := by
  intro ls
  induction ls with
  | nil =>
    intro wss h ws hws i hi
    simp only [wrapEach, Except.ok.injEq] at h
    subst h
    simp at hws
  | cons l rest ih =>
    intro wss h ws hws i hi
    rw [wrapEach] at h
    cases hwrap : pyWrap l v with
    | error e => rw [hwrap] at h; exact absurd h (fun x => Except.noConfusion x)
    | ok ws1 =>
      rw [hwrap] at h
      cases hrest : wrapEach v rest with
      | error e => rw [hrest] at h; exact absurd h (fun x => Except.noConfusion x)
      | ok wss1 =>
        rw [hrest] at h
        simp only [Except.ok.injEq] at h
        subst h
        rcases List.mem_cons.mp hws with h | h
        · exact (pyWrap_ok l v ws1 hwrap).2 i (h ▸ hi)
        · exact ih wss1 hrest ws h i hi

/-- Shape of a successful paragraph block at width at least 3: a heading
or image paragraph emits its centered text plus a blank line; every other
branch emits lines that fit within the width (the wrapped cores are
bounded by `w`, `w - 3` or `w - 6` and the prefixes add exactly three
characters). -/
theorem buildParagraph_cases (st : HTMLtoLines) (w : Int) (n : Nat)
    (line : String) (block : List String) (hw : 3 ≤ w)
    (hb : buildParagraph st w n line = .ok block) :
    ((n ∈ st.idhead ∨ n ∈ st.idimgs) ∧ block = [pyCenter line w, ""]) ∨
    (∀ l ∈ block, (l.length : Int) ≤ w) := by
  have h3 : ("   " : String).length = 3 := rfl
  have hd : (" - " : String).length = 3 := rfl
  have h0 : ("" : String).length = 0 := rfl
  unfold buildParagraph at hb
  by_cases hh : n ∈ st.idhead
  · rw [if_pos hh] at hb
    simp only [Except.ok.injEq] at hb
    exact Or.inl ⟨Or.inl hh, hb.symm⟩
  rw [if_neg hh] at hb
  by_cases hinde : n ∈ st.idinde
  · rw [if_pos hinde] at hb
    cases hwrap : pyWrap line (w - 3) with
    | error e => rw [hwrap] at hb; exact absurd hb (fun x => Except.noConfusion x)
    | ok ws =>
      rw [hwrap] at hb
      simp only [Except.ok.injEq] at hb
      subst hb
      refine Or.inr (fun l hl => ?_)
      rcases List.mem_append.mp hl with h | h
      · rcases List.mem_map.mp h with ⟨i, hi, rfl⟩
        have hib := (pyWrap_ok line (w - 3) ws hwrap).2 i hi
        rw [String.length_append, h3]
        omega
      · rw [List.mem_singleton.mp h, h0]
        omega
  rw [if_neg hinde] at hb
  by_cases hbull : n ∈ st.idbull
  · rw [if_pos hbull] at hb
    cases hwrap : pyWrap line (w - 3) with
    | error e => rw [hwrap] at hb; exact absurd hb (fun x => Except.noConfusion x)
    | ok ws =>
      rw [hwrap] at hb
      simp only [Except.ok.injEq] at hb
      subst hb
      refine Or.inr (fun l hl => ?_)
      rcases List.mem_append.mp hl with h | h
      · cases ws with
        | nil => simp at h
        | cons first rest =>
          rcases List.mem_map.mp h with ⟨i, hi, rfl⟩
          have hib := (pyWrap_ok line (w - 3) _ hwrap).2 i hi
          by_cases hfirst : i = first
          · rw [if_pos hfirst, String.length_append, hd]
            omega
          · rw [if_neg hfirst, String.length_append, h3]
            omega
      · rw [List.mem_singleton.mp h, h0]
        omega
  rw [if_neg hbull] at hb
  by_cases hpref : n ∈ st.idpref
  · rw [if_pos hpref] at hb
    cases hwrap : wrapEach (w - 6) (pySplitlines line) with
    | error e => rw [hwrap] at hb; exact absurd hb (fun x => Except.noConfusion x)
    | ok wraps =>
      rw [hwrap] at hb
      simp only [Except.ok.injEq] at hb
      subst hb
      refine Or.inr (fun l hl => ?_)
      rcases List.mem_append.mp hl with h | h
      · rcases List.mem_map.mp h with ⟨i, hi, rfl⟩
        rcases List.mem_flatten.mp hi with ⟨ws, hws, hiws⟩
        have hib := wrapEach_ok (w - 6) (pySplitlines line) wraps hwrap ws hws i hiws
        rw [String.length_append, h3]
        omega
      · rw [List.mem_singleton.mp h, h0]
        omega
  rw [if_neg hpref] at hb
  by_cases himg : n ∈ st.idimgs
  · rw [if_pos himg] at hb
    cases hlook : pyLookup st.imgs n with
    | none => rw [hlook] at hb; exact absurd hb (fun x => Except.noConfusion x)
    | some p =>
      rw [hlook] at hb
      simp only [Except.ok.injEq] at hb
      exact Or.inl ⟨Or.inr himg, hb.symm⟩
  rw [if_neg himg] at hb
  cases hwrap : pyWrap line w with
  | error e => rw [hwrap] at hb; exact absurd hb (fun x => Except.noConfusion x)
  | ok ws =>
    rw [hwrap] at hb
    simp only [Except.ok.injEq] at hb
    subst hb
    refine Or.inr (fun l hl => ?_)
    rcases List.mem_append.mp hl with h | h
    · exact (pyWrap_ok line w ws hwrap).2 l h
    · rw [List.mem_singleton.mp h, h0]
      omega

/-- Text effect of one `buildStep`: on success the step appends exactly
the paragraph's block to the accumulated output lines. -/
theorem buildStep_text (st : HTMLtoLines)
    (ig bg : List (Nat × List TextSpan)) (w : Int) (sl : Nat)
    (acc : BuildAcc) (n : Nat) (line : String) (acc' : BuildAcc)
    (h : buildStep st ig bg w sl acc n line = .ok acc') :
    ∃ block, buildParagraph st w n line = .ok block ∧
      acc'.text = acc.text ++ block := by
  unfold buildStep at h
  rcases hsect : pyLookup st.sectsindex n with _ | sectId
  · rw [hsect] at h
    dsimp only at h
    cases hb : buildParagraph st w n line with
    | error e => rw [hb] at h; exact absurd h (fun x => Except.noConfusion x)
    | ok block =>
      rw [hb] at h
      simp only [Except.ok.injEq] at h
      subst h
      refine ⟨block, rfl, ?_⟩
      dsimp only
      split_ifs <;> rfl
  · rw [hsect] at h
    dsimp only at h
    cases hb : buildParagraph st w n line with
    | error e => rw [hb] at h; exact absurd h (fun x => Except.noConfusion x)
    | ok block =>
      rw [hb] at h
      simp only [Except.ok.injEq] at h
      subst h
      refine ⟨block, rfl, ?_⟩
      dsimp only
      split_ifs <;> rfl

/-- Right-membership inversion for `List.Forall₂`. -/
theorem forallTwo_mem_right {α β : Type} {R : α → β → Prop} :
    ∀ {as : List α} {bs : List β}, List.Forall₂ R as bs →
      ∀ b ∈ bs, ∃ a ∈ as, R a b := by
  intro as bs h
  induction h with
  | nil => intro b hb; simp at hb
  | cons hr ht ih =>
    intro b hb
    rcases List.mem_cons.mp hb with rfl | hb
    · exact ⟨_, List.mem_cons_self _ _, hr⟩
    · rcases ih b hb with ⟨a, ha, har⟩
      exact ⟨a, List.mem_cons_of_mem _ ha, har⟩

/-- Members of an enumerated list are in-range indices paired with the
element at that index. -/
theorem mem_enumFrom_getD :
    ∀ (l : List String) (k : Nat) (p : Nat × String),
      p ∈ List.enumFrom k l →
      k ≤ p.1 ∧ p.1 - k < l.length ∧ l.getD (p.1 - k) "" = p.2 := by
  intro l
  induction l with
  | nil => intro k p hp; simp [List.enumFrom] at hp
  | cons a t ih =>
    intro k p hp
    rw [List.enumFrom] at hp
    rcases List.mem_cons.mp hp with rfl | hp
    · simp
    · obtain ⟨h1, h2, h3⟩ := ih (k + 1) p hp
      refine ⟨by omega, by simp only [List.length_cons]; omega, ?_⟩
      have hk : p.1 - k = (p.1 - (k + 1)) + 1 := by omega
      rw [hk]
      simpa using h3

/-- Decomposition of a successful paragraph loop: the output lines are
the input lines plus the concatenation of the per-paragraph blocks, one
block per enumerated paragraph. -/
theorem buildLoop_blocks (st : HTMLtoLines)
    (ig bg : List (Nat × List TextSpan)) (w : Int) (sl : Nat) :
    ∀ (paras : List String) (acc : BuildAcc) (n : Nat) (acc' : BuildAcc),
      buildLoop st ig bg w sl acc n paras = .ok acc' →
      ∃ blocks : List (List String),
        List.Forall₂
          (fun (p : Nat × String) b => buildParagraph st w p.1 p.2 = .ok b)
          (List.enumFrom n paras) blocks ∧
        acc'.text = acc.text ++ blocks.flatten := by
  intro paras
  induction paras with
  | nil =>
    intro acc n acc' h
    simp only [buildLoop, Except.ok.injEq] at h
    subst h
    exact ⟨[], by simp [List.enumFrom], by simp⟩
  | cons line rest ih =>
    intro acc n acc' h
    rw [buildLoop] at h
    cases hstep : buildStep st ig bg w sl acc n line with
    | error e => rw [hstep] at h; exact absurd h (fun x => Except.noConfusion x)
    | ok acc1 =>
      rw [hstep] at h
      obtain ⟨block, hbp, htext⟩ :=
        buildStep_text st ig bg w sl acc n line acc1 hstep
      obtain ⟨blocks, hf, htext2⟩ := ih acc1 (n + 1) acc' h
      refine ⟨block :: blocks, ?_, ?_⟩
      · rw [List.enumFrom]
        exact List.Forall₂.cons hbp hf
      · rw [htext2, htext, List.flatten_cons, List.append_assoc]

/-- Centering a string within a width no larger than its length returns
the string unchanged. -/
theorem pyCenter_length_self (s : String) (width : Int)
    (h : width ≤ (s.length : Int)) : pyCenter s width = s := by
  unfold pyCenter
  rw [if_pos h]

/-- Centering a shorter string pads it to exactly the requested width. -/
theorem pyCenter_length_pad (s : String) (width : Int)
    (h : (s.length : Int) < width) :
    ((pyCenter s width).length : Int) = width := by
  unfold pyCenter
  rw [if_neg (by omega)]
  dsimp only
  simp only [String.length_append, string_mk_length, List.length_replicate]
    at h ⊢
  have hx : (width.toNat - s.length) &&& width.toNat &&& 1 ≤ 1 := by
    rw [Nat.and_one_is_mod]
    omega
  have hdl : s.data.length = s.length := rfl
  omega

/-- Claim C6, counterexample: at `textwidth = 1` (claim range
`textwidth >= 1`) the parse of the empty HTML string succeeds and the
centered `"***"` chapter-suffix line has length 3 > 1, although the state
has no heading and no image paragraph, so the line is not one of the
claim's excepted centered lines. -/
theorem C6_counterexample :
    get_structured_text (mkHTMLtoLines []) (some 1) 0 =
      .ok (.structured ⟨["", "***"], [], [], []⟩) ∧
    (mkHTMLtoLines []).idhead = [] ∧
    (mkHTMLtoLines []).idimgs = [] ∧
    ¬("***".length ≤ 1) := by
  refine ⟨rfl, rfl, rfl, ?_⟩
  decide

/-- Claim C6, amended: for `textwidth >= 3`, whenever
`get_structured_text` succeeds, every output line is either the centered
line of a heading or image paragraph (which centering may leave longer
than the width) or has length at most `textwidth`; the centered `"***"`
suffix has length exactly `textwidth`.  (For `textwidth` 1 or 2 the
suffix itself exceeds the width, and narrow widths make the indent,
bullet and preformatted branches raise `ValueError` instead of producing
lines.) -/
theorem C6_width_invariant :
    ∀ (st : HTMLtoLines) (w : Int) (sl : Nat) (ts : TextStructure),
      3 ≤ w →
      get_structured_text st (some w) sl = .ok (.structured ts) →
      ∀ l ∈ ts.text_lines,
        (∃ n, n < st.text.length ∧ (n ∈ st.idhead ∨ n ∈ st.idimgs) ∧
          l = pyCenter (st.text.getD n "") w) ∨
        (l.length : Int) ≤ w := by
  intro st w sl ts hw hok l hl
  have hw0 : ¬w = 0 := by omega
  have h0 : ("" : String).length = 0 := rfl
  unfold get_structured_text at hok
  dsimp only at hok
  rw [if_neg hw0] at hok
  cases hloop : buildLoop st
      (group_spans_by_row (mark_to_spans st.text st.italic_marks))
      (group_spans_by_row (mark_to_spans st.text st.bold_marks))
      w sl ⟨[], [], [], []⟩ 0 st.text with
  | error e => rw [hloop] at hok; exact absurd hok (fun x => Except.noConfusion x)
  | ok acc =>
    rw [hloop] at hok
    simp only [Except.ok.injEq, StructuredText.structured.injEq] at hok
    subst hok
    dsimp only at hl
    rcases List.mem_append.mp hl with hmem | hmem
    · obtain ⟨blocks, hf, htext⟩ := buildLoop_blocks st
        (group_spans_by_row (mark_to_spans st.text st.italic_marks))
        (group_spans_by_row (mark_to_spans st.text st.bold_marks))
        w sl st.text ⟨[], [], [], []⟩ 0 acc hloop
      rw [htext] at hmem
      simp only [List.nil_append] at hmem
      rcases List.mem_flatten.mp hmem with ⟨block, hbl, hlb⟩
      obtain ⟨p, hp, hbp⟩ := forallTwo_mem_right hf block hbl
      obtain ⟨hk, hlt, hgd⟩ := mem_enumFrom_getD st.text 0 p hp
      rcases buildParagraph_cases st w p.1 p.2 block hw hbp with
        ⟨hrole, hblockeq⟩ | hbound
      · subst hblockeq
        rcases List.mem_cons.mp hlb with rfl | hlb2
        · refine Or.inl ⟨p.1, by omega, hrole, ?_⟩
          rw [show st.text.getD p.1 "" = p.2 from by simpa using hgd]
        · rcases List.mem_singleton.mp hlb2 with rfl
          right
          rw [h0]
          omega
      · exact Or.inr (hbound l hlb)
    · rcases List.mem_singleton.mp hmem with rfl
      right
      by_cases hlt3 : (("***" : String).length : Int) < w
      · have := pyCenter_length_pad "***" w hlt3
        omega
      · have h3 : ("***" : String).length = 3 := rfl
        rw [pyCenter_length_self "***" w (by omega), h3]
        omega

/-- Claim C6, witness: the amended invariant applied to the suffix line
of the empty document at width 3. -/
theorem C6_witness :
    (∃ n, n < (mkHTMLtoLines []).text.length ∧
      (n ∈ (mkHTMLtoLines []).idhead ∨ n ∈ (mkHTMLtoLines []).idimgs) ∧
      "***" = pyCenter ((mkHTMLtoLines []).text.getD n "") 3) ∨
    (("***" : String).length : Int) ≤ 3 :=
  C6_width_invariant (mkHTMLtoLines []) 3 0 ⟨["", "***"], [], [], []⟩
    (le_refl 3) rfl "***" (by decide)

/-- Modelled from the spec, amended: layout of a preformatted paragraph —
split the paragraph on its newlines, word-wrap each resulting piece
independently at `textwidth - 6`, prefix every produced line with three
spaces, and append one trailing blank line; a piece that wraps to no
lines (in particular every internal blank line) contributes no output
line. -/
def prefBlockSpec (line : String) (w : Int) : Except PyErr (List String) :=
  match wrapEach (w - 6) (pySplitlines line) with
  | .error e => .error e
  | .ok wraps => .ok (wraps.flatten.map (fun i => "   " ++ i) ++ [""])

/-- Claim C5, amended: the builder lays out every preformatted paragraph
exactly as `prefBlockSpec` describes — split on newlines, wrap each piece
at `textwidth - 6`, three-space prefix, trailing blank line — except that
pieces wrapping to nothing (internal blank lines) are dropped rather than
preserved. -/
theorem C5_pref_layout :
    (∀ (st : HTMLtoLines) (w : Int) (n : Nat) (line : String),
      n ∉ st.idhead → n ∉ st.idinde → n ∉ st.idbull → n ∈ st.idpref →
      buildParagraph st w n line = prefBlockSpec line w) ∧
    prefBlockSpec "a\n\nb" 20 = .ok ["   a", "   b", ""] := by
  refine ⟨?_, rfl⟩
  intro st w n line hh hi hb hp
  unfold buildParagraph prefBlockSpec
  rw [if_neg hh, if_neg hi, if_neg hb, if_pos hp]

/-- Claim C5, witness: the preformatted branch at the concrete parsed
state. -/
theorem C5_witness :
    buildParagraph prefState 20 0 "a\n\nb" = prefBlockSpec "a\n\nb" 20 :=
  C5_pref_layout.1 prefState 20 0 "a\n\nb" (by decide) (by decide)
    (by decide) (by decide)

/-- Claim C8: whenever the paragraph index being processed is in the
section-anchor map, the builder records
`section_rows[anchor_id] = starting_line + (output lines emitted so far)`
before emitting that paragraph's wrapped lines; in the concrete
five-paragraph document whose first four paragraphs wrap into 11 output
lines, the anchored fifth paragraph yields `section_rows["ch2"] = 11`. -/
theorem C8_section_anchor_rows :
    (∀ (st : HTMLtoLines) (ig bg : List (Nat × List TextSpan)) (w : Int)
      (sl : Nat) (acc acc' : BuildAcc) (n : Nat) (line : String)
      (sectId : String),
      pyLookup st.sectsindex n = some sectId →
      buildStep st ig bg w sl acc n line = .ok acc' →
      acc'.sect = pySetItem acc.sect sectId (sl + acc.text.length)) ∧
    sectionRowsOf (parse_html anchorEvents (some 20) ["ch2"] 0) =
      [("ch2", 11)] ∧
    (textLinesOf (parse_html anchorEvents (some 20) ["ch2"] 0)).take 11 =
      ["alpha beta gamma", "delta", "", "epsil zeta etaa", "theta iota", "",
       "kappa lamda muuuu", "nuuuu", "", "x", ""] ∧
    (textLinesOf (parse_html anchorEvents (some 20) ["ch2"] 0)).getD 11 "" =
      "anchored paragraph" := by
  refine ⟨?_, rfl, rfl, rfl⟩
  intro st ig bg w sl acc acc' n line sectId hsect hstep
  exact buildStep_sect st ig bg w sl acc acc' n line sectId hsect hstep

/-- Claim C8, witness: the anchored fifth paragraph of the concrete
document records its anchor at the current output-line count. -/
theorem C8_witness :
    (BuildAcc.mk ["anchored paragraph", ""] [] [("ch2", 0)] []).sect =
      pySetItem (BuildAcc.mk [] [] [] []).sect "ch2"
        (0 + (BuildAcc.mk [] [] [] []).text.length) :=
  C8_section_anchor_rows.1 anchorState [] [] 20 0 ⟨[], [], [], []⟩
    ⟨["anchored paragraph", ""], [], [("ch2", 0)], []⟩ 4
    "anchored paragraph" "ch2" rfl rfl

/-- Claim C2, witness: the wrapped-line width bound of the end-to-end
example at its first wrapped line. -/
theorem C2_witness : ("Hello world this is" : String).length ≤ 20 :=
  C2_end_to_end.2.2.1 "Hello world this is" (by decide)
